import Mathlib

/-!
Verification development for the clinic-management application
(`src/main.py`). The Python source is shallowly embedded: the
`DentalClinicDB` methods become pure Lean functions over explicit
state values (an association-list file system for the file-level
backup/restore methods, a record of table contents for the SQL-backed
methods). The data-lifecycle components that the repository's other
variants contain but `src/` does not (authenticated encrypted backups,
CSV table export/import) are modelled from the specification text and
are marked as such in their doc comments.
-/

namespace Clinic

/-- Raw file content, as a byte sequence. -/
abbrev Bytes := List Nat

/-- A file system: a finite map from paths to file contents, as an
association list with at most one entry per path. -/
abbrev Fs := List (String × Bytes)

/-- Look a path up in the file system. -/
def fsGet : Fs → String → Option Bytes
  | [], _ => none
  | (q, c) :: rest, p => if q = p then some c else fsGet rest p

/-- Write a file: replace the entry for `p` if present, else append it. -/
def fsSet : Fs → String → Bytes → Fs
  | [], p, b => [(p, b)]
  | (q, c) :: rest, p, b => if q = p then (p, b) :: rest else (q, c) :: fsSet rest p b

/-- Default primary-store path, `DentalClinicDB.__init__`'s
`db_path="dental_clinic.db"` (src/main.py line 13). -/
def defaultDbPath : String := "dental_clinic.db"

/-- Embedding of `DentalClinicDB.export_db` (src/main.py lines 490-497):
`shutil.copy2(self.db_path, export_path)` inside a try/except that
returns `True` on success and `False` on any exception. A missing
source file raises, hence returns `False` with the file system
untouched; on success the destination holds exactly the source bytes. -/
def export_db (dbPath : String) (fs : Fs) (exportPath : String) : Bool × Fs :=
  match fsGet fs dbPath with
  | none => (false, fs)
  | some content => (true, fsSet fs exportPath content)

/-- Embedding of `DentalClinicDB.import_db` (src/main.py lines 499-511):
`shutil.copy2(import_path, self.db_path)` inside a try/except returning
`True`/`False`. The copy writes directly onto the live primary-store
path; there is no temporary path and no rename. A missing artifact
raises, hence returns `False` with the file system untouched. -/
def import_db (dbPath : String) (fs : Fs) (importPath : String) : Bool × Fs :=
  match fsGet fs importPath with
  | none => (false, fs)
  | some content => (true, fsSet fs dbPath content)

/-- Observable file-system states during `import_db`'s `shutil.copy2`:
the copy opens the destination for writing (truncating it) and then
appends the source content chunk by chunk, so between the initial state
and completion the destination holds each successive initial segment of
the new content. Modelled at the finest (one-byte) chunk granularity;
the initial state (old content still in place) heads the list. -/
def importObservable (dbPath : String) (fs : Fs) (importPath : String) : List Fs :=
  match fsGet fs importPath with
  | none => [fs]
  | some content =>
      fs :: (List.range (content.length + 1)).map (fun k => fsSet fs dbPath (content.take k))

/-- A run of `DentalClinicDB.import_db` in which the copy raises an I/O
error (for example, disk full) after `k` bytes have been written to the
destination. The except-branch returns `False`; the destination file
has already been truncated and partially rewritten. -/
def import_db_interrupted (dbPath : String) (fs : Fs) (importPath : String) (k : Nat) :
    Bool × Fs :=
  match fsGet fs importPath with
  | none => (false, fs)
  | some content => (false, fsSet fs dbPath (content.take k))

/-- Fixed artifact path used by the Settings view's backup and restore
handlers (src/main.py lines 1974 and 1983): `"dental_clinic_backup.db"`. -/
def settingsBackupPath : String := "dental_clinic_backup.db"

/-- Embedding of the Settings view's `export_db` handler
(src/main.py lines 1971-1978): calls `DentalClinicDB.export_db` with the
fixed path `dental_clinic_backup.db`. -/
def settings_export_handler (fs : Fs) : Bool × Fs :=
  export_db defaultDbPath fs settingsBackupPath

/-- Embedding of the Settings view's `import_db` handler
(src/main.py lines 1980-1992): succeeds only if the fixed artifact path
exists and `DentalClinicDB.import_db` returns `True`. -/
def settings_import_handler (fs : Fs) : Bool × Fs :=
  match fsGet fs settingsBackupPath with
  | none => (false, fs)
  | some _ => import_db defaultDbPath fs settingsBackupPath

/-- Decide whether a character is an ASCII digit. -/
def isDigitCh (c : Char) : Bool := decide ('0' ≤ c) && decide (c ≤ '9')

/-- Decide whether a file name has the form
`clinic_backup_<YYYYMMDD_HHMMSS>.<ext>` claimed by the specification:
the literal stem `clinic_backup_`, then eight digits, an underscore and
six digits, then a dot and a nonempty extension. -/
def followsBackupNamePattern (s : String) : Bool :=
  let d := s.data
  decide (d.take 14 = ("clinic_backup_").data) &&
  decide (d.length ≥ 31) &&
  ((d.drop 14).take 8).all isDigitCh &&
  decide ((d.drop 22).take 1 = [Char.ofNat 95]) &&
  ((d.drop 23).take 6).all isDigitCh &&
  decide ((d.drop 29).take 1 = [Char.ofNat 46]) &&
  decide (d.drop 30 ≠ [])

/-- The `settings` table, keyed by its unique `key` column: an
association list from key to value. The table's autoincrement `id`
column plays no role in any read or write and is elided. -/
abbrev Settings := List (String × String)

/-- Default settings inserted by `init_db` (src/main.py lines 130-133). -/
def default_settings : List (String × String) :=
  [("language", "English"), ("dark_mode", "False")]

/-- Embedding of `DentalClinicDB.get_setting` (src/main.py lines 470-477):
`SELECT value FROM settings WHERE key = ?`, returning the value if a row
exists and `None` otherwise. -/
def get_setting : Settings → String → Option String
  | [], _ => none
  | (q, v) :: rest, k => if q = k then some v else get_setting rest k

/-- Embedding of the settings-initialisation part of
`DentalClinicDB.init_db` (src/main.py lines 129-141): for each default
pair, select the key and insert the default only when no row exists. -/
def init_db_settings (s : Settings) : Settings :=
  default_settings.foldl
    (fun acc kv => match get_setting acc kv.1 with
      | some _ => acc
      | none => acc ++ [kv]) s

/-- Embedding of `DentalClinicDB.update_setting` (src/main.py lines
479-488): `INSERT OR REPLACE INTO settings (key, value)` on the unique
`key` column. -/
def update_setting : Settings → String → String → Settings
  | [], k, v => [(k, v)]
  | (q, w) :: rest, k, v =>
      if q = k then (k, v) :: rest else (q, w) :: update_setting rest k v

/-- Row of the `users` table (src/main.py lines 23-29). The `password`
column holds the SHA-256 hex digest computed by the Python callers; the
digest string is passed into the model already hashed. -/
structure UserRow where
  id : Nat
  username : String
  password : String
  deriving Repr, DecidableEq

/-- Row of the `patients` table (src/main.py lines 32-42). -/
structure PatientRow where
  id : Nat
  name : String
  age : Option Int
  gender : String
  phone : String
  address : String
  created_at : String
  deriving Repr, DecidableEq

/-- Row of the `medical_history` table (src/main.py lines 45-55). -/
structure MedicalHistoryRow where
  id : Nat
  patient_id : Option Nat
  allergies : String
  chronic_diseases : String
  notes : String
  created_at : String
  deriving Repr, DecidableEq

/-- Row of the `doctors` table (src/main.py lines 58-66). -/
structure DoctorRow where
  id : Nat
  name : String
  specialty : String
  phone : String
  email : String
  deriving Repr, DecidableEq

/-- Row of the `appointments` table (src/main.py lines 69-82). -/
structure AppointmentRow where
  id : Nat
  patient_id : Option Nat
  doctor_id : Option Nat
  date : String
  time : String
  notes : String
  status : String
  created_at : String
  deriving Repr, DecidableEq

/-- Row of the `treatments` table (src/main.py lines 85-96). -/
structure TreatmentRow where
  id : Nat
  patient_id : Option Nat
  appointment_id : Option Nat
  description : String
  cost : ℚ
  created_at : String
  deriving Repr, DecidableEq

/-- Row of the `invoices` table (src/main.py lines 99-110). The `REAL`
money columns are modelled by exact rationals; each stored value is the
very value computed by the inserting statement. -/
structure InvoiceRow where
  id : Nat
  patient_id : Option Nat
  service_provided : String
  total_cost : ℚ
  amount_paid : ℚ
  remaining_balance : ℚ
  created_at : String
  deriving Repr, DecidableEq

/-- The relational state of `dental_clinic.db`: one list of rows per
table plus, per table with inserts, the `AUTOINCREMENT` sequence counter
that yields `lastrowid`. -/
structure DB where
  users : List UserRow
  patients : List PatientRow
  medical_history : List MedicalHistoryRow
  doctors : List DoctorRow
  appointments : List AppointmentRow
  treatments : List TreatmentRow
  invoices : List InvoiceRow
  settings : Settings
  seq_users : Nat
  seq_patients : Nat
  seq_medical_history : Nat
  seq_doctors : Nat
  seq_appointments : Nat
  seq_invoices : Nat
  deriving Repr, DecidableEq

/-- The empty database as `init_db` leaves it on a fresh file, modulo
the default rows: no domain rows, default settings, and the default
`admin` user whose hashed password is abstracted by the given digest. -/
def DB.fresh (adminDigest : String) : DB :=
  { users := [⟨1, "admin", adminDigest⟩]
    patients := []
    medical_history := []
    doctors := []
    appointments := []
    treatments := []
    invoices := []
    settings := init_db_settings []
    seq_users := 1
    seq_patients := 0
    seq_medical_history := 0
    seq_doctors := 0
    seq_appointments := 0
    seq_invoices := 0 }

/-- Embedding of `DentalClinicDB.add_patient` (src/main.py lines 168-179).
`now` stands for the `created_at` column's `CURRENT_TIMESTAMP` default;
the returned `Nat` is `cursor.lastrowid`. -/
def add_patient (db : DB) (name : String) (age : Option Int)
    (gender phone address now : String) : Nat × DB :=
  let pid := db.seq_patients + 1
  (pid, { db with
            patients := db.patients ++ [⟨pid, name, age, gender, phone, address, now⟩]
            seq_patients := pid })

/-- Embedding of `DentalClinicDB.update_patient` (src/main.py lines 206-216). -/
def update_patient (db : DB) (pid : Nat) (name : String) (age : Option Int)
    (gender phone address : String) : DB :=
  { db with
      patients := db.patients.map fun p =>
        if p.id = pid then
          { p with name := name, age := age, gender := gender,
                   phone := phone, address := address }
        else p }

/-- Embedding of `DentalClinicDB.delete_patient` (src/main.py lines
218-230): deletes the related `medical_history`, `treatments`,
`invoices` and `appointments` rows by `patient_id`, then the patient
row itself, in one committed connection. -/
def delete_patient (db : DB) (pid : Nat) : DB :=
  { db with
      medical_history := db.medical_history.filter fun m => ¬ m.patient_id = some pid
      treatments := db.treatments.filter fun t => ¬ t.patient_id = some pid
      invoices := db.invoices.filter fun i => ¬ i.patient_id = some pid
      appointments := db.appointments.filter fun a => ¬ a.patient_id = some pid
      patients := db.patients.filter fun p => ¬ p.id = pid }

/-- Embedding of `DentalClinicDB.add_medical_history` (src/main.py lines 232-241). -/
def add_medical_history (db : DB) (pid : Option Nat)
    (allergies chronic_diseases notes now : String) : DB :=
  let hid := db.seq_medical_history + 1
  { db with
      medical_history :=
        db.medical_history ++ [⟨hid, pid, allergies, chronic_diseases, notes, now⟩]
      seq_medical_history := hid }

/-- Embedding of `DentalClinicDB.add_doctor` (src/main.py lines 256-267). -/
def add_doctor (db : DB) (name specialty phone email : String) : Nat × DB :=
  let did := db.seq_doctors + 1
  (did, { db with
            doctors := db.doctors ++ [⟨did, name, specialty, phone, email⟩]
            seq_doctors := did })

/-- Embedding of `DentalClinicDB.update_doctor` (src/main.py lines 285-295). -/
def update_doctor (db : DB) (did : Nat) (name specialty phone email : String) : DB :=
  { db with
      doctors := db.doctors.map fun d =>
        if d.id = did then
          { d with name := name, specialty := specialty, phone := phone, email := email }
        else d }

/-- Embedding of `DentalClinicDB.delete_doctor` (src/main.py lines 297-303). -/
def delete_doctor (db : DB) (did : Nat) : DB :=
  { db with doctors := db.doctors.filter fun d => ¬ d.id = did }

/-- Embedding of `DentalClinicDB.add_appointment` (src/main.py lines
305-316); the `status` column takes its schema default `'scheduled'`. -/
def add_appointment (db : DB) (pid did : Option Nat)
    (date time notes now : String) : Nat × DB :=
  let aid := db.seq_appointments + 1
  (aid, { db with
            appointments :=
              db.appointments ++ [⟨aid, pid, did, date, time, notes, "scheduled", now⟩]
            seq_appointments := aid })

/-- Embedding of `DentalClinicDB.update_appointment` (src/main.py lines 354-364). -/
def update_appointment (db : DB) (aid : Nat) (pid did : Option Nat)
    (date time notes status : String) : DB :=
  { db with
      appointments := db.appointments.map fun a =>
        if a.id = aid then
          { a with patient_id := pid, doctor_id := did, date := date,
                   time := time, notes := notes, status := status }
        else a }

/-- Embedding of `DentalClinicDB.delete_appointment` (src/main.py lines 366-372). -/
def delete_appointment (db : DB) (aid : Nat) : DB :=
  { db with appointments := db.appointments.filter fun a => ¬ a.id = aid }

/-- Embedding of `DentalClinicDB.add_invoice` (src/main.py lines 374-386):
computes `remaining_balance = total_cost - amount_paid` and inserts the
row; returns `cursor.lastrowid`. -/
def add_invoice (db : DB) (pid : Option Nat) (service_provided : String)
    (total_cost amount_paid : ℚ) (now : String) : Nat × DB :=
  let remaining_balance := total_cost - amount_paid
  let iid := db.seq_invoices + 1
  (iid, { db with
            invoices := db.invoices ++
              [⟨iid, pid, service_provided, total_cost, amount_paid,
                remaining_balance, now⟩]
            seq_invoices := iid })

/-- Embedding of `DentalClinicDB.update_invoice` (src/main.py lines
411-422): recomputes `remaining_balance = total_cost - amount_paid` and
rewrites the row with the matching id. -/
def update_invoice (db : DB) (iid : Nat) (pid : Option Nat)
    (service_provided : String) (total_cost amount_paid : ℚ) : DB :=
  let remaining_balance := total_cost - amount_paid
  { db with
      invoices := db.invoices.map fun i =>
        if i.id = iid then
          { i with patient_id := pid, service_provided := service_provided,
                   total_cost := total_cost, amount_paid := amount_paid,
                   remaining_balance := remaining_balance }
        else i }

/-- Embedding of `DentalClinicDB.delete_invoice` (src/main.py lines 424-430). -/
def delete_invoice (db : DB) (iid : Nat) : DB :=
  { db with invoices := db.invoices.filter fun i => ¬ i.id = iid }

/-- Embedding of `DentalClinicDB.update_user_credentials` (src/main.py
lines 158-166); `digest` is the SHA-256 hex digest the Python method
computes from the new password before the UPDATE. -/
def update_user_credentials (db : DB) (username digest : String) : DB :=
  { db with
      users := db.users.map fun u =>
        if u.username = username then { u with password := digest } else u }

/-- Applies `update_setting` to the database's settings table. -/
def db_update_setting (db : DB) (k v : String) : DB :=
  { db with settings := update_setting db.settings k v }

/-- One mutating call of the database layer: an argument-carrying tag
for each state-changing `DentalClinicDB` method. -/
inductive DBOp where
  | opAddPatient (name : String) (age : Option Int) (gender phone address now : String)
  | opUpdatePatient (pid : Nat) (name : String) (age : Option Int)
      (gender phone address : String)
  | opDeletePatient (pid : Nat)
  | opAddMedicalHistory (pid : Option Nat) (allergies chronic_diseases notes now : String)
  | opAddDoctor (name specialty phone email : String)
  | opUpdateDoctor (did : Nat) (name specialty phone email : String)
  | opDeleteDoctor (did : Nat)
  | opAddAppointment (pid did : Option Nat) (date time notes now : String)
  | opUpdateAppointment (aid : Nat) (pid did : Option Nat) (date time notes status : String)
  | opDeleteAppointment (aid : Nat)
  | opAddInvoice (pid : Option Nat) (service_provided : String)
      (total_cost amount_paid : ℚ) (now : String)
  | opUpdateInvoice (iid : Nat) (pid : Option Nat) (service_provided : String)
      (total_cost amount_paid : ℚ)
  | opDeleteInvoice (iid : Nat)
  | opUpdateSetting (k v : String)
  | opUpdateUserCredentials (username digest : String)

/-- Runs one database-layer operation on the state. -/
def applyOp (op : DBOp) (db : DB) : DB :=
  match op with
  | .opAddPatient name age gender phone address now =>
      (add_patient db name age gender phone address now).2
  | .opUpdatePatient pid name age gender phone address =>
      update_patient db pid name age gender phone address
  | .opDeletePatient pid => delete_patient db pid
  | .opAddMedicalHistory pid allergies chronic_diseases notes now =>
      add_medical_history db pid allergies chronic_diseases notes now
  | .opAddDoctor name specialty phone email => (add_doctor db name specialty phone email).2
  | .opUpdateDoctor did name specialty phone email =>
      update_doctor db did name specialty phone email
  | .opDeleteDoctor did => delete_doctor db did
  | .opAddAppointment pid did date time notes now =>
      (add_appointment db pid did date time notes now).2
  | .opUpdateAppointment aid pid did date time notes status =>
      update_appointment db aid pid did date time notes status
  | .opDeleteAppointment aid => delete_appointment db aid
  | .opAddInvoice pid service_provided total_cost amount_paid now =>
      (add_invoice db pid service_provided total_cost amount_paid now).2
  | .opUpdateInvoice iid pid service_provided total_cost amount_paid =>
      update_invoice db iid pid service_provided total_cost amount_paid
  | .opDeleteInvoice iid => delete_invoice db iid
  | .opUpdateSetting k v => db_update_setting db k v
  | .opUpdateUserCredentials username digest => update_user_credentials db username digest

/-- A single invoice row satisfies the balance equation. -/
def invoiceRowBalanced (i : InvoiceRow) : Bool :=
  decide (i.remaining_balance = i.total_cost - i.amount_paid)

/-- Every row of the `invoices` table satisfies
`remaining_balance = total_cost - amount_paid`. -/
def invoicesBalanced (db : DB) : Bool :=
  db.invoices.all invoiceRowBalanced

/-- Failure kinds of the backup service (spec section 7 taxonomy,
restricted to the kinds `create` can raise). -/
inductive BackupError where
  | cryptoUnavailable
  | missingKey
  deriving Repr, DecidableEq

/-- Outcome of one backup invocation: a plain artifact holding the raw
snapshot bytes, an encrypted artifact (ciphertext abstracted as the key
paired with the payload it authenticates), or a reported failure. -/
inductive BackupOutcome where
  | plainArtifact (content : Bytes)
  | encryptedArtifact (key : String) (content : Bytes)
  | failed (e : BackupError)
  deriving Repr, DecidableEq

/-- Whether a backup outcome reports success. -/
def BackupOutcome.isSuccess : BackupOutcome → Bool
  | .plainArtifact _ => true
  | .encryptedArtifact _ _ => true
  | .failed _ => false

/-- Modelled from the spec: `BackupService.create(encrypt, key)` of
section 4.3. The encryption-capable backup service exists only in
repository variants outside `src/`, so it is modelled from the
specification's words: a plain snapshot when encryption is not
requested; when encryption is requested, an encrypted artifact if the
capability is present and key material is supplied, and otherwise an
explicit failure — never a silent downgrade to a plain artifact. -/
def create_backup (cryptoAvailable : Bool) (key : Option String)
    (encrypt : Bool) (storeContent : Bytes) : BackupOutcome :=
  if encrypt then
    if cryptoAvailable then
      match key with
      | some k => .encryptedArtifact k storeContent
      | none => .failed .missingKey
    else .failed .cryptoUnavailable
  else .plainArtifact storeContent

/-- The double-quote character, written by its code point. -/
def dq : Char := Char.ofNat 34

/-- The line-feed character, written by its code point. -/
def nl : Char := Char.ofNat 10

/-- A CSV field needs quoting when it contains the delimiter, a line
break, or a quote character (spec section 3, CSV artifact). -/
def needsQuote (s : List Char) : Bool :=
  s.any fun c => decide (c = ',') || decide (c = nl) || decide (c = dq)

/-- Doubles every quote character of a field body, the escape used
inside a quoted CSV field. -/
def escapeQuotes : List Char → List Char
  | [] => []
  | c :: rest => (if c = dq then [dq, dq] else [c]) ++ escapeQuotes rest

/-- Renders one CSV field: quoted, with inner quotes doubled, exactly
when the text contains the delimiter, a line break or a quote. -/
def renderField (s : List Char) : List Char :=
  if needsQuote s then dq :: (escapeQuotes s ++ [dq]) else s

/-- Joins chunks with a separator between consecutive chunks. -/
def joinSep (sep : Char) : List (List Char) → List Char
  | [] => []
  | [x] => x
  | x :: y :: rest => x ++ sep :: joinSep sep (y :: rest)

/-- Renders one CSV record: the fields in order, comma-separated. -/
def renderRecord (r : List (List Char)) : List Char :=
  joinSep ',' (r.map renderField)

/-- Modelled from the spec: the CSV artifact of `TableExporter`
(sections 3 and 4.5), absent from `src/`. One header record followed by
one record per row, records separated by line breaks, fields
comma-delimited, fields containing the delimiter or line breaks quoted. -/
def renderCsv (records : List (List (List Char))) : List Char :=
  joinSep nl (records.map renderRecord)

/-- State machine reading a CSV artifact back into records: `inQ` is
the inside-quotes flag, `field`/`row`/`rows` accumulate the current
field, the current record and the finished records. A doubled quote
inside a quoted field yields one literal quote. -/
def parseCsvAux : Bool → List Char → List Char → List (List Char) →
    List (List (List Char)) → List (List (List Char))
  | _, [], field, row, rows => rows ++ [row ++ [field]]
  | true, [c], field, row, rows =>
      if c = dq then rows ++ [row ++ [field]]
      else rows ++ [row ++ [field ++ [c]]]
  | true, c :: d :: rest2, field, row, rows =>
      if c = dq then
        if d = dq then parseCsvAux true rest2 (field ++ [dq]) row rows
        else parseCsvAux false (d :: rest2) field row rows
      else parseCsvAux true (d :: rest2) (field ++ [c]) row rows
  | false, c :: rest, field, row, rows =>
      if c = dq then parseCsvAux true rest field row rows
      else if c = ',' then parseCsvAux false rest [] (row ++ [field]) rows
      else if c = nl then parseCsvAux false rest [] [] (rows ++ [row ++ [field]])
      else parseCsvAux false rest (field ++ [c]) row rows

/-- Reads a whole CSV text into its records. -/
def parseCsv (cs : List Char) : List (List (List Char)) :=
  parseCsvAux false cs [] [] []

/-- A reflected table: the ordered column list obtained from the
store's metadata, and the rows, each row listing its field values in
that column order (spec section 3, table schema). Field values are the
text the CSV layer exchanges. -/
structure Table where
  cols : List (List Char)
  rows : List (List (List Char))
  deriving Repr, DecidableEq

/-- Modelled from the spec: `TableExporter.export` (section 4.5),
absent from `src/`. Writes the header record of reflected column names
and then one record per row in that exact column order. -/
def export_table (t : Table) : List Char :=
  renderCsv (t.cols :: t.rows)

/-- Modelled from the spec: one row insert of `TableImporter` (section
4.6). The insert fails when the row does not provide exactly the target
table's columns, or when its key (the leading primary-key column)
collides with an existing row. -/
def insert_row (t : Table) (r : List (List Char)) : Option Table :=
  if r.length = t.cols.length then
    if t.rows.any (fun q => decide (q.head? = r.head?)) then none
    else some ⟨t.cols, t.rows ++ [r]⟩
  else none

/-- Modelled from the spec: the one batch insert of `TableImporter`
(section 4.6), executed inside one transaction: the whole batch commits
only if every row inserts, otherwise nothing does. -/
def insert_batch (t : Table) (rs : List (List (List Char))) : Option Table :=
  match rs with
  | [] => some t
  | r :: rest =>
    match insert_row t r with
    | none => none
    | some t1 => insert_batch t1 rest

/-- Modelled from the spec: `TableImporter.import` (section 4.6),
absent from `src/`. Reads the header record as the column list, fails
when the header is empty or absent or does not match the target table's
columns, and otherwise runs the all-or-nothing batch insert. -/
def import_table (t : Table) (cs : List Char) : Option Table :=
  match parseCsv cs with
  | [] => none
  | header :: dataRows =>
    if header = [] then none
    else if header = [[]] then none
    else if header = t.cols then insert_batch t dataRows
    else none

/-- The table a caller holds after an import attempt: the new table on
success, the unchanged target on a rejected batch. -/
def import_table_result (t : Table) (cs : List Char) : Table :=
  (import_table t cs).getD t

/-- A small concrete file system: the primary store holds four bytes,
the artifact at the settings handlers' fixed path holds two bytes. -/
def fsEx : Fs := [(defaultDbPath, [1, 2, 3, 4]), (settingsBackupPath, [9, 9])]

theorem fsGet_fsSet_self (fs : Fs) (p : String) (b : Bytes) :
    fsGet (fsSet fs p b) p = some b := by
  induction fs with
  | nil => simp [fsSet, fsGet]
  | cons e rest ih =>
    obtain ⟨q, c⟩ := e
    by_cases h : q = p
    · simp [fsSet, fsGet, h]
    · simp [fsSet, fsGet, h, ih]

theorem fsGet_fsSet_ne (fs : Fs) (p q : String) (b : Bytes) (h : q ≠ p) :
    fsGet (fsSet fs p b) q = fsGet fs q := by
  induction fs with
  | nil => simp [fsSet, fsGet, Ne.symm h]
  | cons e rest ih =>
    obtain ⟨u, c⟩ := e
    by_cases hu : u = p
    · subst hu
      simp [fsSet, fsGet, Ne.symm h]
    · by_cases hq : u = q
      · subst hq
        simp [fsSet, fsGet, h, hu]
      · simp [fsSet, fsGet, hu, hq, ih]

/-- C1. The claim states that every restore/import invocation replaces
the primary store by staging the new content at a temporary path and
atomically moving it into place, so that every observable state is
either fully the old or fully the new version. The code instead copies
the artifact directly over the live store file: on the concrete file
system `fsEx`, the call reports success, yet among the observable
states of the copy there is one in which the primary store holds
neither the old content `[1,2,3,4]` nor the new content `[9,9]`. -/
theorem import_db_midcopy_state_neither_old_nor_new :
    (import_db defaultDbPath fsEx settingsBackupPath).1 = true ∧
    (importObservable defaultDbPath fsEx settingsBackupPath).any
      (fun s => !(decide (fsGet s defaultDbPath = some [1, 2, 3, 4])) &&
                !(decide (fsGet s defaultDbPath = some [9, 9]))) = true := by
  constructor
  · rfl
  · decide

/-- C2. The claim states that a restore/import failure occurring before
the final atomic swap leaves the primary store's bytes unchanged. The
code has no staging step: on `fsEx`, a run of `import_db` in which the
copy raises after one byte has been written reports failure, yet the
primary store no longer holds its prior content `[1,2,3,4]`. -/
theorem import_db_interrupted_changes_store :
    (import_db_interrupted defaultDbPath fsEx settingsBackupPath 1).1 = false ∧
    fsGet (import_db_interrupted defaultDbPath fsEx settingsBackupPath 1).2
        defaultDbPath = some [9] ∧
    ¬ fsGet (import_db_interrupted defaultDbPath fsEx settingsBackupPath 1).2
        defaultDbPath = some [1, 2, 3, 4] := by
  refine ⟨rfl, by decide, by decide⟩

/-- C3. For every primary store whose file holds byte content `c`, a
successful plain backup (`export_db`) produces an artifact file whose
byte content equals `c` exactly. -/
theorem export_db_copies_bytes (dbPath expPath : String) (fs : Fs) (c : Bytes)
    (h : fsGet fs dbPath = some c) :
    export_db dbPath fs expPath = (true, fsSet fs expPath c) ∧
    fsGet (export_db dbPath fs expPath).2 expPath = some c := by
  constructor
  · simp [export_db, h]
  · simp [export_db, h, fsGet_fsSet_self]

/-- Closed instance of `export_db_copies_bytes` on `fsEx`. -/
theorem export_db_copies_bytes_witness :
    export_db defaultDbPath fsEx "out.db" = (true, fsSet fsEx "out.db" [1, 2, 3, 4]) ∧
    fsGet (export_db defaultDbPath fsEx "out.db").2 "out.db" = some [1, 2, 3, 4] :=
  export_db_copies_bytes defaultDbPath "out.db" fsEx [1, 2, 3, 4] (by decide)

/-- C4. Whenever an encrypted backup is requested and a precondition
fails — the encryption capability is absent or no key material is
supplied — the backup service reports failure: the outcome is not a
success and in particular is never a plain artifact presented as
success. -/
theorem create_backup_requires_key_and_capability (cryptoAvailable : Bool)
    (key : Option String) (content : Bytes)
    (h : cryptoAvailable = false ∨ key = none) :
    (create_backup cryptoAvailable key true content).isSuccess = false ∧
    ∀ c, create_backup cryptoAvailable key true content ≠ .plainArtifact c := by
  rcases h with h | h
  · subst h
    exact ⟨rfl, fun c hc => by simp [create_backup] at hc⟩
  · subst h
    cases cryptoAvailable <;>
      exact ⟨rfl, fun c hc => by simp [create_backup] at hc⟩

/-- Closed instance of `create_backup_requires_key_and_capability`:
capability present but no key material. -/
theorem create_backup_requires_key_and_capability_witness :
    (create_backup true none true [7]).isSuccess = false ∧
    ∀ c, create_backup true none true [7] ≠ .plainArtifact c :=
  create_backup_requires_key_and_capability true none [7] (Or.inr rfl)

/-- C7 counterexample. The claim states that every backup artifact is a
file named `clinic_backup_<YYYYMMDD_HHMMSS>.<ext>`. The pattern checker
accepts such names, yet the Settings view's backup handler writes its
artifact (byte-for-byte the primary store) to the fixed path
`dental_clinic_backup.db`, which the pattern rejects. -/
theorem settings_backup_name_not_timestamped :
    followsBackupNamePattern "clinic_backup_20240101_120000.db" = true ∧
    followsBackupNamePattern settingsBackupPath = false ∧
    (settings_export_handler fsEx).1 = true ∧
    fsGet (settings_export_handler fsEx).2 settingsBackupPath = some [1, 2, 3, 4] := by
  refine ⟨by decide, by decide, rfl, by decide⟩

/-- C7 amended. The Settings view's backup handler writes its artifact
to the fixed path `dental_clinic_backup.db` (no timestamped name), and
on success the artifact is byte-identical to the primary store file. -/
theorem settings_export_fixed_path_byte_identical (fs : Fs) (c : Bytes)
    (h : fsGet fs defaultDbPath = some c) :
    settings_export_handler fs = (true, fsSet fs settingsBackupPath c) ∧
    fsGet (settings_export_handler fs).2 settingsBackupPath = some c := by
  constructor
  · simp [settings_export_handler, export_db, h]
  · simp [settings_export_handler, export_db, h, fsGet_fsSet_self]

/-- Closed instance of `settings_export_fixed_path_byte_identical`. -/
theorem settings_export_fixed_path_byte_identical_witness :
    settings_export_handler fsEx =
      (true, fsSet fsEx settingsBackupPath [1, 2, 3, 4]) ∧
    fsGet (settings_export_handler fsEx).2 settingsBackupPath = some [1, 2, 3, 4] :=
  settings_export_fixed_path_byte_identical fsEx [1, 2, 3, 4] (by decide)

/-- C8 counterexample. The claim states that after first-run
initialisation every documented settings key — in particular
`encrypt_backups` and `username` — reads back its documented default.
On the store `init_db` actually creates, those keys have no row at all:
reading them yields `none` rather than any default value. -/
theorem fresh_settings_missing_spec_keys :
    get_setting (init_db_settings []) "encrypt_backups" = none ∧
    get_setting (init_db_settings []) "username" = none := by
  constructor <;> decide

/-- C8 amended. On first run, when the settings store is absent (empty),
`init_db` creates exactly the defaults `language = "English"` and
`dark_mode = "False"`; reading those keys returns those values, while
the keys `username`, `encrypt_backups` and `encryption_key` are not
created and read back as absent — in particular no key material is
stored. -/
theorem fresh_settings_defaults :
    get_setting (init_db_settings []) "language" = some "English" ∧
    get_setting (init_db_settings []) "dark_mode" = some "False" ∧
    get_setting (init_db_settings []) "username" = none ∧
    get_setting (init_db_settings []) "encrypt_backups" = none ∧
    get_setting (init_db_settings []) "encryption_key" = none := by
  refine ⟨by decide, by decide, by decide, by decide, by decide⟩

theorem all_filter_of_all {α : Type} (l : List α) (p q : α → Bool)
    (h : l.all q = true) : (l.filter p).all q = true := by
  rw [List.all_eq_true] at h ⊢
  exact fun x hx => h x (List.mem_of_mem_filter hx)

/-- C9. After `delete_patient pid`, the `patients` table has no row with
that id, and the `medical_history`, `treatments`, `invoices` and
`appointments` tables have no row whose `patient_id` equals that id. -/
theorem delete_patient_removes_all_related (db : DB) (pid : Nat) :
    ((delete_patient db pid).patients.all fun p => decide (¬ p.id = pid)) = true ∧
    ((delete_patient db pid).medical_history.all
      fun m => decide (¬ m.patient_id = some pid)) = true ∧
    ((delete_patient db pid).treatments.all
      fun t => decide (¬ t.patient_id = some pid)) = true ∧
    ((delete_patient db pid).invoices.all
      fun i => decide (¬ i.patient_id = some pid)) = true ∧
    ((delete_patient db pid).appointments.all
      fun a => decide (¬ a.patient_id = some pid)) = true := by
  refine ⟨?_, ?_, ?_, ?_, ?_⟩ <;>
    · rw [List.all_eq_true]
      intro x hx
      simp only [delete_patient, List.mem_filter] at hx
      simpa using hx.2

/-- C10. Invoice rows written by `add_invoice` and `update_invoice`
satisfy `remaining_balance = total_cost - amount_paid`, and every
database-layer operation preserves this property of all rows of the
`invoices` table. -/
theorem invoice_balance_invariant :
    (∀ (db : DB) (pid : Option Nat) (sv : String) (tc ap : ℚ) (now : String),
      (((add_invoice db pid sv tc ap now).2.invoices.drop db.invoices.length).all
        invoiceRowBalanced) = true) ∧
    (∀ (db : DB) (iid : Nat) (pid : Option Nat) (sv : String) (tc ap : ℚ),
      (((update_invoice db iid pid sv tc ap).invoices.filter
        fun i => decide (i.id = iid)).all invoiceRowBalanced) = true) ∧
    (∀ (op : DBOp) (db : DB), invoicesBalanced db = true →
      invoicesBalanced (applyOp op db) = true) := by
  have hrow : ∀ (iid : Nat) (pid : Option Nat) (sv : String) (tc ap : ℚ) (now : String),
      invoiceRowBalanced ⟨iid, pid, sv, tc, ap, tc - ap, now⟩ = true := by
    intro iid pid sv tc ap now
    simp [invoiceRowBalanced]
  have hupd : ∀ (db : DB) (iid : Nat) (pid : Option Nat) (sv : String) (tc ap : ℚ),
      (((update_invoice db iid pid sv tc ap).invoices.filter
        fun i => decide (i.id = iid)).all invoiceRowBalanced) = true := by
    intro db iid pid sv tc ap
    rw [List.all_eq_true]
    intro i hi
    rw [List.mem_filter] at hi
    obtain ⟨hmem, hid⟩ := hi
    simp only [update_invoice, List.mem_map] at hmem
    obtain ⟨j, _, rfl⟩ := hmem
    by_cases h : j.id = iid
    · simp [h, invoiceRowBalanced]
    · simp only [if_neg h] at hid ⊢
      exact absurd (of_decide_eq_true hid) h
  refine ⟨?_, hupd, ?_⟩
  · intro db pid sv tc ap now
    simp only [add_invoice, List.drop_left]
    simp [invoiceRowBalanced]
  · intro op db h
    cases op with
    | opAddPatient name age gender phone address now =>
        simpa [applyOp, add_patient, invoicesBalanced] using h
    | opUpdatePatient pid name age gender phone address =>
        simpa [applyOp, update_patient, invoicesBalanced] using h
    | opDeletePatient pid =>
        exact all_filter_of_all _ _ _ h
    | opAddMedicalHistory pid allergies chronic_diseases notes now =>
        simpa [applyOp, add_medical_history, invoicesBalanced] using h
    | opAddDoctor name specialty phone email =>
        simpa [applyOp, add_doctor, invoicesBalanced] using h
    | opUpdateDoctor did name specialty phone email =>
        simpa [applyOp, update_doctor, invoicesBalanced] using h
    | opDeleteDoctor did =>
        simpa [applyOp, delete_doctor, invoicesBalanced] using h
    | opAddAppointment pid did date time notes now =>
        simpa [applyOp, add_appointment, invoicesBalanced] using h
    | opUpdateAppointment aid pid did date time notes status =>
        simpa [applyOp, update_appointment, invoicesBalanced] using h
    | opDeleteAppointment aid =>
        simpa [applyOp, delete_appointment, invoicesBalanced] using h
    | opAddInvoice pid sv tc ap now =>
        simp only [applyOp, add_invoice, invoicesBalanced, List.all_append] at h ⊢
        simp [h, invoiceRowBalanced]
    | opUpdateInvoice iid pid sv tc ap =>
        simp only [applyOp, invoicesBalanced] at h ⊢
        rw [List.all_eq_true] at h ⊢
        intro i hi
        simp only [update_invoice, List.mem_map] at hi
        obtain ⟨j, hj, rfl⟩ := hi
        by_cases hid : j.id = iid
        · simp [hid, invoiceRowBalanced]
        · simpa [hid] using h j hj
    | opDeleteInvoice iid =>
        exact all_filter_of_all _ _ _ h
    | opUpdateSetting k v =>
        simpa [applyOp, db_update_setting, invoicesBalanced] using h
    | opUpdateUserCredentials username digest =>
        simpa [applyOp, update_user_credentials, invoicesBalanced] using h

/-- A one-invoice database used to instantiate the invariant theorem. -/
def dbEx : DB :=
  { DB.fresh "digest" with
      invoices := [⟨1, some 1, "cleaning", 10, 4, 6, "2024-01-01"⟩]
      seq_invoices := 1 }

/-- Closed instance of `invoice_balance_invariant`: applying an
`add_invoice` operation to a balanced concrete database keeps every
invoice row balanced. -/
theorem invoice_balance_invariant_witness :
    invoicesBalanced (applyOp (.opAddInvoice (some 1) "filling" 20 5 "2024-01-02") dbEx)
      = true :=
  invoice_balance_invariant.2.2 (.opAddInvoice (some 1) "filling" 20 5 "2024-01-02")
    dbEx (by norm_num [invoicesBalanced, dbEx, invoiceRowBalanced])

theorem parseCsvAux_plain (f rest acc : List Char) (row : List (List Char))
    (rows : List (List (List Char))) (hf : needsQuote f = false) :
    parseCsvAux false (f ++ rest) acc row rows =
      parseCsvAux false rest (acc ++ f) row rows := by
  induction f generalizing acc with
  | nil => simp
  | cons c cs ih =>
    simp only [needsQuote, List.any_cons, Bool.or_eq_false_iff, decide_eq_false_iff_not] at hf
    obtain ⟨⟨⟨hc1, hc2⟩, hc3⟩, hcs⟩ := hf
    rw [List.cons_append, parseCsvAux.eq_def]
    simp only [if_neg hc3, if_neg hc1, if_neg hc2, Bool.false_eq_true, if_false]
    rw [ih (acc ++ [c]) ?_]
    · simp
    · simp [needsQuote, hcs]


theorem parseCsvAux_end (inQ : Bool) (field : List Char) (row : List (List Char))
    (rows : List (List (List Char))) :
    parseCsvAux inQ [] field row rows = rows ++ [row ++ [field]] := by
  cases inQ <;> rfl

theorem parseCsvAux_q_dqdq (rest field : List Char) (row : List (List Char))
    (rows : List (List (List Char))) :
    parseCsvAux true (dq :: dq :: rest) field row rows =
      parseCsvAux true rest (field ++ [dq]) row rows := by
  simp [parseCsvAux]

theorem parseCsvAux_q_close (d : Char) (rest field : List Char)
    (row : List (List Char)) (rows : List (List (List Char))) (hd : ¬ d = dq) :
    parseCsvAux true (dq :: d :: rest) field row rows =
      parseCsvAux false (d :: rest) field row rows := by
  simp [parseCsvAux, hd]

theorem parseCsvAux_q_close_end (field : List Char) (row : List (List Char))
    (rows : List (List (List Char))) :
    parseCsvAux true [dq] field row rows = parseCsvAux false [] field row rows := by
  simp [parseCsvAux]

theorem parseCsvAux_q_char (c : Char) (rest field : List Char)
    (row : List (List Char)) (rows : List (List (List Char))) (hc : ¬ c = dq) :
    parseCsvAux true (c :: rest) field row rows =
      parseCsvAux true rest (field ++ [c]) row rows := by
  cases rest <;> simp [parseCsvAux, hc]

theorem parseCsvAux_open (rest field : List Char) (row : List (List Char))
    (rows : List (List (List Char))) :
    parseCsvAux false (dq :: rest) field row rows =
      parseCsvAux true rest field row rows := by
  simp [parseCsvAux]

theorem parseCsvAux_comma (rest field : List Char) (row : List (List Char))
    (rows : List (List (List Char))) :
    parseCsvAux false (',' :: rest) field row rows =
      parseCsvAux false rest [] (row ++ [field]) rows := by
  simp [parseCsvAux, show ¬ (',' = dq) by decide]

theorem parseCsvAux_nl (rest field : List Char) (row : List (List Char))
    (rows : List (List (List Char))) :
    parseCsvAux false (nl :: rest) field row rows =
      parseCsvAux false rest [] [] (rows ++ [row ++ [field]]) := by
  simp [parseCsvAux, show ¬ (nl = dq) by decide, show ¬ (nl = ',') by decide]

theorem parseCsvAux_char (c : Char) (rest field : List Char)
    (row : List (List Char)) (rows : List (List (List Char)))
    (h1 : ¬ c = dq) (h2 : ¬ c = ',') (h3 : ¬ c = nl) :
    parseCsvAux false (c :: rest) field row rows =
      parseCsvAux false rest (field ++ [c]) row rows := by
  simp [parseCsvAux, h1, h2, h3]

theorem parseCsvAux_quoted (f rest acc : List Char) (row : List (List Char))
    (rows : List (List (List Char)))
    (hrest : rest = [] ∨ ∃ d rest2, rest = d :: rest2 ∧ ¬ d = dq) :
    parseCsvAux true (escapeQuotes f ++ dq :: rest) acc row rows =
      parseCsvAux false rest (acc ++ f) row rows := by
  induction f generalizing acc with
  | nil =>
    rw [escapeQuotes, List.nil_append]
    rcases hrest with h | ⟨d, rest2, hr, hd⟩
    · subst h
      rw [parseCsvAux_q_close_end]
      simp
    · subst hr
      rw [parseCsvAux_q_close d rest2 acc row rows hd]
      simp
  | cons c cs ih =>
    by_cases hc : c = dq
    · subst hc
      rw [escapeQuotes]
      simp only [eq_self_iff_true, if_true, List.cons_append, List.nil_append]
      rw [parseCsvAux_q_dqdq, ih (acc ++ [dq])]
      simp
    · rw [escapeQuotes]
      simp only [if_neg hc, List.cons_append, List.nil_append]
      rw [parseCsvAux_q_char c _ acc row rows hc, ih (acc ++ [c])]
      simp

theorem parseCsvAux_renderField (f rest acc : List Char) (row : List (List Char))
    (rows : List (List (List Char)))
    (hrest : rest = [] ∨ ∃ t, rest = ',' :: t ∨ rest = nl :: t) :
    parseCsvAux false (renderField f ++ rest) acc row rows =
      parseCsvAux false rest (acc ++ f) row rows := by
  by_cases hq : needsQuote f = true
  · rw [renderField, if_pos hq]
    simp only [List.cons_append, List.append_assoc, List.cons_append, List.nil_append]
    rw [parseCsvAux_open]
    refine parseCsvAux_quoted f rest acc row rows ?_
    rcases hrest with h | ⟨t, h | h⟩
    · exact Or.inl h
    · exact Or.inr ⟨',', t, h, by decide⟩
    · exact Or.inr ⟨nl, t, h, by decide⟩
  · rw [renderField, if_neg hq]
    exact parseCsvAux_plain f rest acc row rows (Bool.not_eq_true _ ▸ hq)

theorem parseCsvAux_record_end (r : List (List Char)) (hr : r ≠ [])
    (row : List (List Char)) (rows : List (List (List Char))) :
    parseCsvAux false (renderRecord r) [] row rows = rows ++ [row ++ r] := by
  induction r generalizing row with
  | nil => exact absurd rfl hr
  | cons f t ih =>
    cases t with
    | nil =>
      have : renderRecord [f] = renderField f := by simp [renderRecord, joinSep]
      rw [this]
      have := parseCsvAux_renderField f [] [] row rows (Or.inl rfl)
      rw [List.append_nil] at this
      rw [this, parseCsvAux_end]
      simp
    | cons g rs =>
      have : renderRecord (f :: g :: rs) =
          renderField f ++ ',' :: renderRecord (g :: rs) := by
        simp [renderRecord, joinSep]
      rw [this]
      rw [parseCsvAux_renderField f (',' :: renderRecord (g :: rs)) [] row rows
        (Or.inr ⟨renderRecord (g :: rs), Or.inl rfl⟩)]
      rw [List.nil_append, parseCsvAux_comma]
      rw [ih (by simp) (row ++ [f])]
      simp

theorem parseCsvAux_record_nl (r : List (List Char)) (hr : r ≠ [])
    (rest : List Char) (row : List (List Char)) (rows : List (List (List Char))) :
    parseCsvAux false (renderRecord r ++ nl :: rest) [] row rows =
      parseCsvAux false rest [] [] (rows ++ [row ++ r]) := by
  induction r generalizing row with
  | nil => exact absurd rfl hr
  | cons f t ih =>
    cases t with
    | nil =>
      have h1 : renderRecord [f] = renderField f := by simp [renderRecord, joinSep]
      rw [h1]
      rw [parseCsvAux_renderField f (nl :: rest) [] row rows
        (Or.inr ⟨rest, Or.inr rfl⟩)]
      rw [List.nil_append, parseCsvAux_nl]
    | cons g rs =>
      have h1 : renderRecord (f :: g :: rs) =
          renderField f ++ ',' :: renderRecord (g :: rs) := by
        simp [renderRecord, joinSep]
      rw [h1, List.append_assoc, List.cons_append]
      rw [parseCsvAux_renderField f (',' :: (renderRecord (g :: rs) ++ nl :: rest))
        [] row rows (Or.inr ⟨renderRecord (g :: rs) ++ nl :: rest, Or.inl rfl⟩)]
      rw [List.nil_append, parseCsvAux_comma]
      rw [ih (by simp) (row ++ [f])]
      simp

theorem parseCsvAux_renderCsv (records : List (List (List Char)))
    (h1 : records ≠ []) (h2 : ∀ r ∈ records, r ≠ [])
    (rows : List (List (List Char))) :
    parseCsvAux false (renderCsv records) [] [] rows = rows ++ records := by
  induction records generalizing rows with
  | nil => exact absurd rfl h1
  | cons r t ih =>
    cases t with
    | nil =>
      have hcsv : renderCsv [r] = renderRecord r := by simp [renderCsv, joinSep]
      rw [hcsv, parseCsvAux_record_end r (h2 r (by simp)) [] rows]
      simp
    | cons y rs =>
      have hcsv : renderCsv (r :: y :: rs) =
          renderRecord r ++ nl :: renderCsv (y :: rs) := by
        simp [renderCsv, joinSep]
      rw [hcsv, parseCsvAux_record_nl r (h2 r (by simp)) _ [] rows]
      rw [ih (by simp) (fun q hq => h2 q (List.mem_cons_of_mem r hq)) (rows ++ [[] ++ r])]
      simp

theorem parseCsv_renderCsv (records : List (List (List Char)))
    (h1 : records ≠ []) (h2 : ∀ r ∈ records, r ≠ []) :
    parseCsv (renderCsv records) = records := by
  rw [parseCsv, parseCsvAux_renderCsv records h1 h2 []]
  simp

theorem insert_row_eq_some (t : Table) (r : List (List Char)) (t1 : Table)
    (h : insert_row t r = some t1) :
    r.length = t.cols.length ∧
    (t.rows.any fun q => decide (q.head? = r.head?)) = false ∧
    t1 = ⟨t.cols, t.rows ++ [r]⟩ := by
  by_cases hlen : r.length = t.cols.length
  · by_cases hany : (t.rows.any fun q => decide (q.head? = r.head?)) = true
    · rw [insert_row, if_pos hlen, if_pos hany] at h
      exact absurd h (by simp)
    · rw [insert_row, if_pos hlen, if_neg hany] at h
      exact ⟨hlen, by simpa using hany, by simpa using h.symm⟩
  · rw [insert_row, if_neg hlen] at h
    exact absurd h (by simp)

theorem insert_batch_ok (cols : List (List Char)) (rs acc : List (List (List Char)))
    (hlen : ∀ r ∈ rs, r.length = cols.length)
    (hkey : (acc ++ rs).Pairwise fun a b => a.head? ≠ b.head?) :
    insert_batch ⟨cols, acc⟩ rs = some ⟨cols, acc ++ rs⟩ := by
  induction rs generalizing acc with
  | nil => simp [insert_batch]
  | cons r rest ih =>
    have hcross : ∀ a ∈ acc, a.head? ≠ r.head? := by
      intro a ha
      exact (List.pairwise_append.mp hkey).2.2 a ha r (by simp)
    have hrow : insert_row ⟨cols, acc⟩ r = some ⟨cols, acc ++ [r]⟩ := by
      rw [insert_row, if_pos (hlen r (by simp))]
      rw [if_neg (by simp; exact hcross)]
    simp only [insert_batch, hrow]
    have hkey2 : ((acc ++ [r]) ++ rest).Pairwise fun a b => a.head? ≠ b.head? := by
      rw [List.append_assoc, List.singleton_append]
      exact hkey
    rw [ih (acc ++ [r]) (fun x hx => hlen x (by simp [hx])) hkey2]
    simp

theorem insert_batch_conflict (t : Table) (rs : List (List (List Char)))
    (r : List (List Char)) (hr : r ∈ rs)
    (hbad : ¬ r.length = t.cols.length ∨ ∃ q ∈ t.rows, q.head? = r.head?) :
    insert_batch t rs = none := by
  induction rs generalizing t with
  | nil => exact absurd hr (by simp)
  | cons r0 rest ih =>
    cases heq : insert_row t r0 with
    | none => rw [insert_batch, heq]
    | some t1 =>
      obtain ⟨hlen0, hany0, rfl⟩ := insert_row_eq_some t r0 t1 heq
      rw [insert_batch, heq]
      rcases List.mem_cons.mp hr with rfl | hmem
      · rcases hbad with hb | ⟨q, hq, hkeyq⟩
        · exact absurd hlen0 hb
        · rw [List.any_eq_false] at hany0
          exact absurd (by simpa using hkeyq) (hany0 q hq)
      · refine ih _ hmem ?_
        rcases hbad with hb | ⟨q, hq, hkeyq⟩
        · exact Or.inl hb
        · exact Or.inr ⟨q, by simp [hq], hkeyq⟩

/-- C5. Exporting a table with rows `R` to a CSV artifact and importing
that artifact into an empty table of the same schema reproduces exactly
`R`: the same rows, with the same field values associated to the same
columns. The hypotheses state that `t` is a well-formed table: a
nonempty column list that is not the single empty name, rows matching
the schema's arity, and pairwise distinct primary keys. -/
theorem export_import_roundtrip (t : Table) (h1 : t.cols ≠ []) (h2 : t.cols ≠ [[]])
    (hlen : ∀ r ∈ t.rows, r.length = t.cols.length)
    (hkey : t.rows.Pairwise fun a b => a.head? ≠ b.head?) :
    import_table ⟨t.cols, []⟩ (export_table t) = some ⟨t.cols, t.rows⟩ := by
  have hparse : parseCsv (export_table t) = t.cols :: t.rows := by
    rw [export_table]
    refine parseCsv_renderCsv _ (by simp) ?_
    intro r hr
    rcases List.mem_cons.mp hr with rfl | hr
    · exact h1
    · intro hnil
      have := hlen r hr
      rw [hnil] at this
      exact h1 (List.length_eq_zero.mp this.symm)
  rw [import_table.eq_def, hparse]
  simp only [if_neg h1, if_neg h2, if_pos rfl]
  have := insert_batch_ok t.cols t.rows [] hlen (by simpa using hkey)
  simpa using this

/-- C6. If any data row of the imported CSV artifact violates a
constraint of the target table — it does not supply exactly the target's
columns (a missing or extra field), or its primary key collides with a
row already in the target table — then the whole batch is rejected:
the importer returns no table and the caller's table keeps its row
count, so partial imports never occur. -/
theorem import_bad_row_rejects_batch (t : Table) (cs : List Char)
    (r : List (List Char)) (hr : r ∈ (parseCsv cs).tail)
    (hbad : ¬ r.length = t.cols.length ∨ ∃ q ∈ t.rows, q.head? = r.head?) :
    import_table t cs = none ∧
    (import_table_result t cs).rows.length = t.rows.length := by
  have hnone : import_table t cs = none := by
    rw [import_table.eq_def]
    cases hp : parseCsv cs with
    | nil => rfl
    | cons header dataRows =>
      rw [hp] at hr
      simp only [List.tail_cons] at hr
      by_cases hh1 : header = []
      · simp [hh1]
      · by_cases hh2 : header = [[]]
        · simp [hh1, hh2]
        · by_cases hh3 : header = t.cols
          · simp only [if_neg hh1, if_neg hh2, if_pos hh3]
            exact insert_batch_conflict t dataRows r hr hbad
          · simp [hh1, hh2, hh3]
  refine ⟨hnone, ?_⟩
  rw [import_table_result, hnone]
  rfl

/-- A two-row, two-column concrete table. -/
def tEx : Table := ⟨[['i','d'], ['n']], [[['1'], ['a']], [['2'], ['b']]]⟩

/-- Closed instance of `export_import_roundtrip` on `tEx`. -/
theorem export_import_roundtrip_witness :
    import_table ⟨tEx.cols, []⟩ (export_table tEx) = some ⟨tEx.cols, tEx.rows⟩ :=
  export_import_roundtrip tEx (by decide) (by decide) (by decide) (by decide)

/-- A CSV artifact whose single data row collides with `tEx` on key `1`. -/
def csEx : List Char := export_table ⟨tEx.cols, [[['1'], ['x']]]⟩

/-- A CSV artifact whose single data row has one field where `tEx` has
two columns: a missing required column. -/
def csArityEx : List Char := renderCsv [tEx.cols, [['3']]]

/-- Closed instances of `import_bad_row_rejects_batch` on `tEx`, one
per constraint kind: a primary-key collision with existing data, and a
data row missing a required column. -/
theorem import_bad_row_rejects_batch_witness :
    (import_table tEx csEx = none ∧
      (import_table_result tEx csEx).rows.length = tEx.rows.length) ∧
    (import_table tEx csArityEx = none ∧
      (import_table_result tEx csArityEx).rows.length = tEx.rows.length) :=
  ⟨import_bad_row_rejects_batch tEx csEx [['1'], ['x']] (by decide)
      (Or.inr ⟨[['1'], ['a']], by decide, by decide⟩),
    import_bad_row_rejects_batch tEx csArityEx [['3']] (by decide)
      (Or.inl (by decide))⟩

end Clinic
